import Mathlib

/-
Verification development for the nexus3d repository.

The definitions below are shallow embeddings of the Python sources:
  - nexus3d/matrix.py                (rotate, translate)
  - nexus3d/nexus_transformations.py (get_transformation_matrix and the
                                      flattening in transformation_matrices_from)
  - nexus3d/formats/mesh.py          (index dtype selection of get_mesh_from_stl)
  - nexus3d/formats/gltf_writer.py   (set_data buffer layout)
  - nexus3d/formats/stl_writer.py    (write_stl_file)

Machine floats are modelled by an arbitrary commutative ring R: the code
only ever combines numbers with ring operations, and every float operation
beyond those (np.cos, np.sin, the Euclidean norm, the pint unit registry)
is kept as an explicit external function parameter, collected in MathEnv,
exactly as the specification treats them (external collaborators).
Concrete witnesses instantiate R with the integers.
-/

set_option linter.unusedSectionVars false
set_option linter.unreachableTactic false
set_option linter.unusedTactic false

namespace Nexus3d

/-- Decidable equality for Except values, used to evaluate the embedded
functions on concrete inputs. -/
instance {ε α : Type} [DecidableEq ε] [DecidableEq α] : DecidableEq (Except ε α) := fun x y =>
  match x, y with
  | .error e, .error f =>
    if h : e = f then .isTrue (congrArg Except.error h)
    else .isFalse fun hh => h (by cases hh; rfl)
  | .ok a, .ok b =>
    if h : a = b then .isTrue (congrArg Except.ok h)
    else .isFalse fun hh => h (by cases hh; rfl)
  | .error _, .ok _ => .isFalse fun hh => by cases hh
  | .ok _, .error _ => .isFalse fun hh => by cases hh

/-- Decidable equality for Option values that evaluates by plain reduction
(the library instance casts along an equality proof, which blocks
evaluation of concrete instances of the embedded functions). -/
instance (priority := 2000) {α : Type} [DecidableEq α] : DecidableEq (Option α) := fun x y =>
  match x, y with
  | none, none => .isTrue rfl
  | some a, some b =>
    if h : a = b then .isTrue (congrArg some h)
    else .isFalse fun hh => h (by cases hh; rfl)
  | none, some _ => .isFalse fun hh => by cases hh
  | some _, none => .isFalse fun hh => by cases hh

/-- V3 models a numpy array of shape (3,). -/
abbrev V3 (R : Type) := Fin 3 → R

/-- M4 models a numeric numpy array of shape (4, 4). -/
abbrev M4 (R : Type) := Fin 4 → Fin 4 → R

variable {R : Type} [CommRing R]

/-- mmul embeds np.matmul on 4 by 4 matrices: entry (i, j) is the sum over k
of A[i, k] * B[k, j]. -/
def mmul (A B : M4 R) : M4 R := fun i j =>
  A i 0 * B 0 j + A i 1 * B 1 j + A i 2 * B 2 j + A i 3 * B 3 j

/-- idM4 is the 4 by 4 identity matrix (np.identity(4)). -/
def idM4 : M4 R := ![![1,0,0,0], ![0,1,0,0], ![0,0,1,0], ![0,0,0,1]]

/-- lastRowAffine states that a matrix has last row exactly [0, 0, 0, 1]. -/
def lastRowAffine (A : M4 R) : Prop :=
  A 3 0 = 0 ∧ A 3 1 = 0 ∧ A 3 2 = 0 ∧ A 3 3 = 1

/-- Cell models one element slot of the nested list handed to np.array inside
translate: the slot holds either a Python scalar or a whole numpy array.
A slot holding an array makes the nested data inhomogeneous, so np.array
cannot build a numeric (4, 4) float matrix from it. -/
inductive Cell (R : Type) where
  | q (x : R)
  | arr (v : V3 R)
deriving DecidableEq

/-- cellQ extracts the scalar of a Cell, if the slot holds a scalar. -/
def cellQ : Cell R → Option R
  | .q x => some x
  | .arr _ => none

/-- isNumericGrid checks that every slot of the nested data holds a scalar. -/
def isNumericGrid (M : Fin 4 → Fin 4 → Cell R) : Bool :=
  (List.finRange 4).all fun i => (List.finRange 4).all fun j => (cellQ (M i j)).isSome

/-- toNumeric models np.array succeeding on the nested data of translate: it
returns the numeric 4 by 4 matrix exactly when every slot holds a scalar,
and none when the data is inhomogeneous (numpy raises ValueError there). -/
def toNumeric (M : Fin 4 → Fin 4 → Cell R) : Option (M4 R) :=
  if isNumericGrid M then
    some (fun i j => (cellQ (M i j)).getD 0)
  else
    none

/-- MathEnv collects the external mathematical collaborators of the code:
np.cos, np.sin, the normalization axis / norm(axis) of numpy (whose norm is
a square root and hence not a ring operation), and the pint unit registry,
which converts a magnitude tagged with a unit string to an SI magnitude
(scalar form uconv, elementwise form uconvVec).  The specification treats
all of these as external functions consumed, not implemented, by the core. -/
structure MathEnv (R : Type) where
  cos : R → R
  sin : R → R
  unitAxis : V3 R → V3 R
  uconv : R → String → R
  uconvVec : V3 R → String → V3 R

/-- rotateRaw embeds the two nested array literals of rotate in
nexus3d/matrix.py (lines 29-76), given the already computed cosa, sina and
the normalized axis components v_x, v_y, v_z. -/
def rotateRaw (cosa sina vx vy vz : R) (off : V3 R) (lh : Bool) : M4 R :=
  let cosa1 := 1 - cosa
  if lh then
    ![![cosa + vx^2 * cosa1, vx * vz * cosa1 + vy * sina, vx * vy * cosa1 - vz * sina, off 0],
      ![vz * vx * cosa1 - vy * sina, cosa + vz^2 * cosa1, vz * vy * cosa1 + vx * sina, off 2],
      ![vy * vx * cosa1 + vz * sina, vy * vz * cosa1 - vx * sina, cosa + vy^2 * cosa1, off 1],
      ![0, 0, 0, 1]]
  else
    ![![cosa + vx^2 * cosa1, vx * vy * cosa1 - vz * sina, vx * vz * cosa1 + vy * sina, off 0],
      ![vy * vx * cosa1 + vz * sina, cosa + vy^2 * cosa1, vy * vz * cosa1 - vx * sina, off 1],
      ![vz * vx * cosa1 - vy * sina, vz * vy * cosa1 + vx * sina, cosa + vz^2 * cosa1, off 2],
      ![0, 0, 0, 1]]

/-- rotate embeds rotate of nexus3d/matrix.py: a missing offset defaults to
np.zeros(3), the axis is normalized (axis / norm(axis), one external
operation of MathEnv), and the matrix is built by rotateRaw from cos(angle)
and sin(angle). -/
def rotate (env : MathEnv R) (angle : R) (axis : V3 R) (offset : Option (V3 R)) (lh : Bool) :
    M4 R :=
  let off := offset.getD ![0, 0, 0]
  let u := env.unitAxis axis
  rotateRaw (env.cos angle) (env.sin angle) (u 0) (u 1) (u 2) off lh

/-- translateRun embeds translate of nexus3d/matrix.py, keeping both of its
observable effects.  The first component is the final value of the trans
array: the statement trans += offset adds the offset into the argument
array in place, so after the call the translation array of the caller
holds translation + offset.  The second component is the nested data handed
to np.array.  The line
  x, y, z = trans[0], trans[2], trans[1] if left_handed else trans
parses as the 3-tuple (trans[0], trans[2], (trans[1] if left_handed else
trans)), so y is always trans[2] and, in the right-handed default branch,
z is the entire trans array, which makes the nested data inhomogeneous. -/
def translateRun (translation : V3 R) (offset : Option (V3 R)) (lh : Bool) :
    V3 R × (Fin 4 → Fin 4 → Cell R) :=
  let trans : V3 R :=
    match offset with
    | none => translation
    | some o => fun i => translation i + o i
  let z : Cell R := if lh then .q (trans 1) else .arr trans
  (trans,
    ![![.q 1, .q 0, .q 0, .q (trans 0)],
      ![.q 0, .q 1, .q 0, .q (trans 2)],
      ![.q 0, .q 0, .q 1, z],
      ![.q 0, .q 0, .q 0, .q 1]])

/-- translate is the matrix actually returned by translate of
nexus3d/matrix.py: the numeric matrix when np.array succeeds on the nested
data, none when numpy rejects the data as inhomogeneous. -/
def translate (translation : V3 R) (offset : Option (V3 R)) (lh : Bool) : Option (M4 R) :=
  toNumeric (translateRun translation offset lh).2

/-- FieldData models the primary dataset of a transformation record
(h5file[entry][()]): a scalar, a 1-D numeric array, or an array of higher
dimensionality. -/
inductive FieldData (R : Type) where
  | scalar (x : R)
  | array1d (xs : List R)
  | higher (ndim : ℕ)
deriving DecidableEq

/-- TransformRecord models one NXtransformations record: its hdf5 attributes
and its primary dataset.  An attribute that may be absent is an Option;
has_offsets_units models membership of the literal key "offsets_units"
(the name tested on line 73 of nexus_transformations.py), while
offset_unit is the attribute actually read on line 78. -/
structure TransformRecord (R : Type) where
  depends_on : Option String
  vector : Option (V3 R)
  transformation_type : Option String
  units : Option String
  offset : Option (V3 R)
  offset_unit : Option String
  has_offsets_units : Bool
  field : FieldData R
deriving DecidableEq

/-- RErr enumerates the failure modes of get_transformation_matrix:
the ValueError for a missing required attribute (with the attribute name
and the record path from its message), the ValueError of the offset-unit
check, the NotImplementedError for an unsupported field shape, the
ValueError for an unknown transformation type, the numpy ValueError raised
when translate builds an inhomogeneous array, the KeyError of an h5 lookup,
and the Python recursion limit for unbounded depends_on chains. -/
inductive RErr where
  | missingAttr (attr : String) (path : String)
  | missingOffsetUnits (path : String)
  | unsupportedField (path : String)
  | unknownTransformationType (t : String)
  | numpyValueError
  | keyError (path : String)
  | recursionLimit
deriving DecidableEq

/-- H5File models the read-only view of the hdf5 file as a finite association
of entry paths to transformation records. -/
abbrev H5File (R : Type) := List (String × TransformRecord R)

/-- lookupEntry models h5file[entry]: the first record registered under the
path, or a KeyError. -/
def lookupEntry (h5 : H5File R) (entry : String) : Except RErr (TransformRecord R) :=
  match h5.find? (fun p => p.1 = entry) with
  | some p => .ok p.2
  | none => .error (.keyError entry)

/-- checkRequired embeds lines 66-71 of nexus_transformations.py: the four
required attributes are checked in order and the first missing one raises
a ValueError naming the attribute and the record path. -/
def checkRequired (r : TransformRecord R) (entry : String) : Except RErr Unit :=
  if r.depends_on.isNone then .error (.missingAttr ("depends_on") entry)
  else if r.vector.isNone then .error (.missingAttr ("vector") entry)
  else if r.transformation_type.isNone then .error (.missingAttr ("transformation_type") entry)
  else if r.units.isNone then .error (.missingAttr ("units") entry)
  else .ok ()

/-- exceptMapList maps a fallible function over a list, stopping at the
first error, like a Python for loop whose body may raise. -/
def exceptMapList {ε α β : Type} (f : α → Except ε β) : List α → Except ε (List β)
  | [] => .ok []
  | a :: as =>
    match f a with
    | .error e => .error e
    | .ok b =>
      match exceptMapList f as with
      | .error e => .error e
      | .ok bs => .ok (b :: bs)

/-- fieldList embeds lines 83-100 of nexus_transformations.py: a 1-D array
field yields one sample per element, a scalar field yields exactly one
sample, and any other shape raises NotImplementedError. -/
def fieldList (f : FieldData R) (entry : String) : Except RErr (List R) :=
  match f with
  | .array1d xs => .ok xs
  | .scalar x => .ok [x]
  | .higher _ => .error (.unsupportedField entry)

/-- buildSample embeds the body of the loop on lines 102-117 of
nexus_transformations.py for one sample value x: the sample is converted to
SI units and handed to translate (with field_si * vector) or rotate, and an
unknown transformation type raises a ValueError.  A none from translate is
the numpy ValueError for inhomogeneous nested data. -/
def buildSample (env : MathEnv R) (lh : Bool) (vec : V3 R) (ttype units : String)
    (offset_si : V3 R) (x : R) : Except RErr (M4 R) :=
  let field_si := env.uconv x units
  if ttype = "translation" then
    match translate (fun i => field_si * vec i) (some offset_si) lh with
    | some m => .ok m
    | none => .error .numpyValueError
  else if ttype = "rotation" then .ok (rotate env field_si vec (some offset_si) lh)
  else .error (.unknownTransformationType ttype)

/-- localMatrices embeds lines 66-117 of get_transformation_matrix: the
required-attribute check, the offset-unit check (which tests membership of
"offsets_units" while the value read afterwards is "offset_unit", defaulted
to the empty unit string), the SI conversion of the offset, and the
construction of one local matrix per field sample. -/
def localMatrices (env : MathEnv R) (lh : Bool) (entry : String) (r : TransformRecord R) :
    Except RErr (List (M4 R)) :=
  match checkRequired r entry with
  | .error e => .error e
  | .ok _ =>
    if r.offset.isSome && !r.has_offsets_units then .error (.missingOffsetUnits entry)
    else
      let offset_si := env.uconvVec (r.offset.getD ![0, 0, 0]) (r.offset_unit.getD (""))
      let vec := r.vector.getD ![0, 0, 0]
      match fieldList r.field entry with
      | .error e => .error e
      | .ok xs =>
        exceptMapList
          (buildSample env lh vec (r.transformation_type.getD (""))
            (r.units.getD ("")) offset_si) xs

/-- splitSlash splits a character list at every slash, like the Python
string method split("/"). -/
def splitSlash : List Char → List (List Char)
  | [] => [[]]
  | c :: cs =>
    let r := splitSlash cs
    if c = '/' then [] :: r
    else (c :: r.headD []) :: r.tail

/-- parentDir embeds entry.rsplit("/", 1)[0]: everything before the last
slash, or the whole string when it has no slash. -/
def parentDir (s : String) : String :=
  match (splitSlash s.toList).dropLast with
  | [] => s
  | ps => String.mk (List.intercalate ['/'] ps)

/-- hasSlash embeds the Python membership test of a slash in a string. -/
def hasSlash (s : String) : Bool :=
  s.toList.any fun c => c = '/'

/-- dependsTarget embeds the path resolution of lines 122-147: a depends_on
value containing a slash is used as an absolute path, otherwise it is
looked up as a sibling of the current entry. -/
def dependsTarget (entry d : String) : String :=
  if hasSlash d then d else parentDir entry ++ ("/") ++ d

/-- combineFams embeds the vectorized np.matmul of xr.apply_ufunc on lines
125-146: the sample axes of the parent and of the local family are distinct
xarray dimensions, so the result holds (in row-major order) the product of
every parent sample with every local sample; when the parent carries a
single matrix this is exactly the per-sample product parent @ local. -/
def combineFams : List (M4 R) → List (M4 R) → List (M4 R)
  | [], _ => []
  | p :: ps, ms => ms.map (mmul p) ++ combineFams ps ms

/-- getTransformationMatrix embeds the recursive resolver of lines 65-147 of
nexus_transformations.py.  The fuel argument bounds the recursion depth as
the Python recursion limit does; a record whose depends_on is "." resolves
to its local matrices, any other record resolves to the product of the
recursively resolved parent (left factor) with its local matrices. -/
def getTransformationMatrix (env : MathEnv R) (lh : Bool) (h5 : H5File R) :
    ℕ → String → Except RErr (List (M4 R))
  | 0, _ => .error .recursionLimit
  | fuel + 1, entry =>
    match lookupEntry h5 entry with
    | .error e => .error e
    | .ok r =>
      match localMatrices env lh entry r with
      | .error e => .error e
      | .ok ms =>
        if r.depends_on.getD ("") = "." then .ok ms
        else
          match getTransformationMatrix env lh h5 fuel
              (dependsTarget entry (r.depends_on.getD (""))) with
          | .error e => .error e
          | .ok parent => .ok (combineFams parent ms)

/-- chainFamilies performs the same traversal as getTransformationMatrix but
collects the local matrix families of the chain in root-first order instead
of multiplying them; it is the reference against which the resolver is
proved to compute the ordered left-to-right product along the chain. -/
def chainFamilies (env : MathEnv R) (lh : Bool) (h5 : H5File R) :
    ℕ → String → Except RErr (List (List (M4 R)))
  | 0, _ => .error .recursionLimit
  | fuel + 1, entry =>
    match lookupEntry h5 entry with
    | .error e => .error e
    | .ok r =>
      match localMatrices env lh entry r with
      | .error e => .error e
      | .ok ms =>
        if r.depends_on.getD ("") = "." then .ok [ms]
        else
          match chainFamilies env lh h5 fuel
              (dependsTarget entry (r.depends_on.getD (""))) with
          | .error e => .error e
          | .ok fams => .ok (fams ++ [ms])

/-- foldFams multiplies a root-first list of local matrix families into the
cumulative family of the whole chain, composing left to right. -/
def foldFams : List (List (M4 R)) → List (M4 R)
  | [] => []
  | f :: fs => fs.foldl combineFams f

/-- flatFrameMatrix embeds the flattening of transformation_matrices_from
(lines 195-203 of nexus_transformations.py) for one frame:
value.values.flat[:16].reshape(4, 4) keeps only the first 16 floats of the
resolved family, i.e. its first matrix. -/
def flatFrameMatrix (env : MathEnv R) (lh : Bool) (h5 : H5File R) (fuel : ℕ)
    (entry : String) : Except RErr (Option (M4 R)) :=
  match getTransformationMatrix env lh h5 fuel entry with
  | .error e => .error e
  | .ok fam => .ok fam.head?

/-- chooseDtype embeds the index dtype selection loop of get_mesh_from_stl
(nexus3d/formats/mesh.py, lines 113-120): the loop walks uint8, uint16,
uint32 and breaks at the first dtype whose np.iinfo(dtype).max is strictly
greater than the maximum index; reaching uint32 without breaking raises the
too-large ValueError, modelled as none. -/
def chooseDtype (maxIndex : ℕ) : Option String :=
  if maxIndex < 255 then some ("uint8")
  else if maxIndex < 65535 then some ("uint16")
  else if maxIndex < 4294967295 then some ("uint32")
  else none

/-- TMValue models one value of the transformation matrix dict handed to a
writer: a plain 4 by 4 matrix, or (when intermediate matrices were stored)
a dict from chain entry names to matrices. -/
inductive TMValue (R : Type) where
  | single (m : M4 R)
  | chain (entries : List (String × M4 R))
deriving DecidableEq

/-- StlErr enumerates the failure modes of write_stl_file: the
NotImplementedError raised for intermediate matrix storage, the Python
TypeError raised by numpy-stl when cube.transform receives a dict instead
of a matrix, and the StopIteration of next(iter(...)) on an empty dict. -/
inductive StlErr where
  | notImplementedIntermediate
  | typeError
  | stopIteration
deriving DecidableEq

/-- transformCube models cube.transform(value) inside cube_meshs_from of
nexus3d/formats/stl_writer.py: a plain matrix transforms the cube (the output
mesh is abstracted by the matrix that placed it), while a dict value makes
numpy-stl raise a TypeError when it tries to slice it. -/
def transformCube : TMValue R → Except StlErr (M4 R)
  | .single m => .ok m
  | .chain _ => .error .typeError

/-- cube_meshs_from embeds cube_meshs_from of nexus3d/formats/stl_writer.py:
one transformed cube per dict value, abstracted by its placement matrix. -/
def cube_meshs_from (vals : List (String × TMValue R)) : Except StlErr (List (M4 R)) :=
  exceptMapList (fun p => transformCube p.2) vals

/-- write_stl_file embeds write_stl_file of nexus3d/formats/stl_writer.py:
the guard on lines 67-70 inspects only next(iter(values())), the first
value of the dict, and raises NotImplementedError when that value is a
dict; otherwise the scene built by cube_meshs_from is written. -/
def write_stl_file (vals : List (String × TMValue R)) : Except StlErr (List (M4 R)) :=
  match vals.head? with
  | none => .error .stopIteration
  | some p =>
    match p.2 with
    | .chain _ => .error .notImplementedIntermediate
    | .single _ => cube_meshs_from vals

/-- SDState is the running state of the loop in set_data of
nexus3d/formats/gltf_writer.py: the running byte offset, the binary buffer
accumulated so far (bytes as naturals), and the bufferView table as
(byteOffset, byteLength) pairs, alternating index view and vertex view. -/
structure SDState where
  offset : ℕ
  binary : List ℕ
  views : List (ℕ × ℕ)
deriving DecidableEq

/-- setDataStep embeds one iteration of the loop on lines 73-120 of
gltf_writer.py for one geometry (indices blob ib, vertices blob vb):
  fill_offset = offset + len(indices_bin) % len(vertices_bin)
(the modulo binds tighter than the addition), the index view starts at the
running offset, the vertex view starts after the index blob and the
padding, and the binary buffer grows by the index blob, fill_offset zero
bytes and the vertex blob. -/
def setDataStep (st : SDState) (g : List ℕ × List ℕ) : SDState :=
  let fill := st.offset + g.1.length % g.2.length
  { offset := st.offset + g.1.length + g.2.length + fill
    binary := st.binary ++ g.1 ++ List.replicate fill 0 ++ g.2
    views := st.views ++ [(st.offset, g.1.length), (st.offset + g.1.length + fill, g.2.length)] }

/-- setData embeds the whole loop of set_data: it starts from offset 0 with
an empty buffer and folds setDataStep over the geometry list; the final
offset is the byteLength declared in the single emitted buffer. -/
def setData (gs : List (List ℕ × List ℕ)) : SDState :=
  gs.foldl setDataStep ⟨0, [], []⟩

/-- padLensAux lists, geometry by geometry, the length of the zero padding
that set_data inserts between the index blob and the vertex blob, starting
from the given running offset. -/
def padLensAux : ℕ → List (List ℕ × List ℕ) → List ℕ
  | _, [] => []
  | off, g :: rest =>
    let fill := off + g.1.length % g.2.length
    fill :: padLensAux (off + g.1.length + g.2.length + fill) rest

/-- viewsFrom is the explicit form of the bufferView table produced by
set_data from a given running offset; it is the reference against which the
foldl of setData is proved. -/
def viewsFrom : ℕ → List (List ℕ × List ℕ) → List (ℕ × ℕ)
  | _, [] => []
  | off, g :: rest =>
    let fill := off + g.1.length % g.2.length
    (off, g.1.length) :: (off + g.1.length + fill, g.2.length) ::
      viewsFrom (off + g.1.length + g.2.length + fill) rest

/-- binFrom is the explicit form of the binary buffer produced by set_data
from a given running offset. -/
def binFrom : ℕ → List (List ℕ × List ℕ) → List ℕ
  | _, [] => []
  | off, g :: rest =>
    let fill := off + g.1.length % g.2.length
    g.1 ++ List.replicate fill 0 ++ g.2 ++ binFrom (off + g.1.length + g.2.length + fill) rest

/-- endOffset is the explicit form of the final running offset of set_data
from a given starting offset. -/
def endOffset : ℕ → List (List ℕ × List ℕ) → ℕ
  | off, [] => off
  | off, g :: rest =>
    let fill := off + g.1.length % g.2.length
    endOffset (off + g.1.length + g.2.length + fill) rest

/-
Concrete fixtures, over the integers, used to evaluate the embedded
functions on explicit inputs.
-/

/-- env0 is a concrete external environment: identity unit conversion,
identity axis normalization, and constant cos = 1, sin = 0. -/
def env0 : MathEnv ℤ :=
  { cos := fun _ => 1, sin := fun _ => 0, unitAxis := fun v => v,
    uconv := fun x _ => x, uconvVec := fun v _ => v }

/-- envDetect is env0 except that its vector unit conversion returns the
offset unchanged only for the empty unit string and a marker vector for any
other unit, making a silently defaulted offset unit observable. -/
def envDetect : MathEnv ℤ :=
  { cos := fun _ => 1, sin := fun _ => 0, unitAxis := fun v => v,
    uconv := fun x _ => x,
    uconvVec := fun v u => if u = "" then v else ![77, 77, 77] }

/-- recRoot is a root record (depends_on is the chain terminator) holding a
translation of 2 along x. -/
def recRoot : TransformRecord ℤ :=
  { depends_on := some ("."), vector := some ![1, 0, 0],
    transformation_type := some ("translation"), units := some ("m"),
    offset := none, offset_unit := none, has_offsets_units := false,
    field := .scalar 2 }

/-- recLeaf is a record whose depends_on names its sibling record a,
holding a translation of 3 along y. -/
def recLeaf : TransformRecord ℤ :=
  { depends_on := some ("a"), vector := some ![0, 1, 0],
    transformation_type := some ("translation"), units := some ("m"),
    offset := none, offset_unit := none, has_offsets_units := false,
    field := .scalar 3 }

/-- h5c1 is a two-record file with the chain t/a <- t/b. -/
def h5c1 : H5File ℤ := [(("t/a"), recRoot), (("t/b"), recLeaf)]

/-- rootM is the local matrix of recRoot under env0 with left-handed
composition. -/
def rootM : M4 ℤ := ![![1,0,0,2], ![0,1,0,0], ![0,0,1,0], ![0,0,0,1]]

/-- leafM is the local matrix of recLeaf under env0 with left-handed
composition (the left-handed translate stores the y translation in the z
row). -/
def leafM : M4 ℤ := ![![1,0,0,0], ![0,1,0,0], ![0,0,1,3], ![0,0,0,1]]

/-- rC3good is a record carrying the documented offset attribute pair:
offset together with offset_unit, but no attribute named offsets_units. -/
def rC3good : TransformRecord ℤ :=
  { depends_on := some ("."), vector := some ![0, 0, 1],
    transformation_type := some ("rotation"), units := some ("degree"),
    offset := some ![1, 2, 3], offset_unit := some ("mm"),
    has_offsets_units := false, field := .scalar 5 }

/-- rC3bad is a record carrying offset and an attribute named
offsets_units, but no offset_unit attribute. -/
def rC3bad : TransformRecord ℤ :=
  { depends_on := some ("."), vector := some ![0, 0, 1],
    transformation_type := some ("rotation"), units := some ("degree"),
    offset := some ![1, 2, 3], offset_unit := none,
    has_offsets_units := true, field := .scalar 5 }

/-- rC4 is a root record with a two-sample parametric translation field. -/
def rC4 : TransformRecord ℤ :=
  { depends_on := some ("."), vector := some ![1, 0, 0],
    transformation_type := some ("translation"), units := some ("m"),
    offset := none, offset_unit := none, has_offsets_units := false,
    field := .array1d [1, 2] }

/-- rC4single is rC4 with a single scalar sample. -/
def rC4single : TransformRecord ℤ :=
  { depends_on := some ("."), vector := some ![1, 0, 0],
    transformation_type := some ("translation"), units := some ("m"),
    offset := none, offset_unit := none, has_offsets_units := false,
    field := .scalar 1 }

/-- rC4higher is rC4 with a two-dimensional field. -/
def rC4higher : TransformRecord ℤ :=
  { depends_on := some ("."), vector := some ![1, 0, 0],
    transformation_type := some ("translation"), units := some ("m"),
    offset := none, offset_unit := none, has_offsets_units := false,
    field := .higher 2 }

/-- h5c4 registers the parametric record at s/c and the scalar record at
s/d. -/
def h5c4 : H5File ℤ := [(("s/c"), rC4), (("s/d"), rC4single)]

/-- A1c4 is the resolved matrix of the first sample of rC4. -/
def A1c4 : M4 ℤ := ![![1,0,0,1], ![0,1,0,0], ![0,0,1,0], ![0,0,0,1]]

/-- A2c4 is the resolved matrix of the second sample of rC4. -/
def A2c4 : M4 ℤ := ![![1,0,0,2], ![0,1,0,0], ![0,0,1,0], ![0,0,0,1]]

/-- rC7units is a record carrying every required attribute except units. -/
def rC7units : TransformRecord ℤ :=
  { depends_on := some ("."), vector := some ![1, 0, 0],
    transformation_type := some ("translation"), units := none,
    offset := none, offset_unit := none, has_offsets_units := false,
    field := .scalar 1 }

/-- h5c7 registers rC7units at m/u. -/
def h5c7 : H5File ℤ := [(("m/u"), rC7units)]

/-- gsC5 holds two geometries, each with a 3-byte index blob and a 4-byte
vertex blob. -/
def gsC5 : List (List ℕ × List ℕ) := [([0, 0, 0], [0, 0, 0, 0]), ([0, 0, 0], [0, 0, 0, 0])]

/-- gsC10 holds two geometries with distinguishable byte contents. -/
def gsC10 : List (List ℕ × List ℕ) := [([1, 2, 3], [4, 5, 6, 7]), ([8], [9, 10])]

/-- mixedVals is a writer input whose first value is a plain matrix and
whose second value is an intermediate chain. -/
def mixedVals : List (String × TMValue ℤ) :=
  [(("a"), .single idM4), (("b"), .chain [])]

/-
Helper lemmas.
-/

/-- The last row of every matrix built by rotateRaw is [0, 0, 0, 1], in
both conventions. -/
theorem rotateRaw_lastRow (cosa sina vx vy vz : R) (off : V3 R) (lh : Bool) :
    lastRowAffine (rotateRaw cosa sina vx vy vz off lh) := by
  cases lh <;> exact ⟨rfl, rfl, rfl, rfl⟩

/-- A successful exceptMapList keeps the length of its input list. -/
theorem exceptMapList_ok_length {ε α β : Type} (f : α → Except ε β) :
    ∀ (xs : List α) (bs : List β), exceptMapList f xs = .ok bs → bs.length = xs.length := by
  intro xs
  induction xs with
  | nil => intro bs h; cases h; rfl
  | cons a as ih =>
    intro bs h
    unfold exceptMapList at h
    cases hfa : f a with
    | error e => rw [hfa] at h; cases h
    | ok b =>
      rw [hfa] at h
      cases hrest : exceptMapList f as with
      | error e => rw [hrest] at h; cases h
      | ok bs2 =>
        rw [hrest] at h
        cases h
        simp [ih bs2 hrest]

/-- A successful exceptMapList maps the i-th input to the i-th output. -/
theorem exceptMapList_ok_get {ε α β : Type} (f : α → Except ε β) :
    ∀ (xs : List α) (bs : List β), exceptMapList f xs = .ok bs →
      ∀ (i : ℕ) (hx : i < xs.length) (hb : i < bs.length),
        f (xs.get ⟨i, hx⟩) = .ok (bs.get ⟨i, hb⟩) := by
  intro xs
  induction xs with
  | nil => intro bs _ i hx; exact absurd hx (by simp)
  | cons a as ih =>
    intro bs h i hx hb
    unfold exceptMapList at h
    cases hfa : f a with
    | error e => rw [hfa] at h; cases h
    | ok b =>
      rw [hfa] at h
      cases hrest : exceptMapList f as with
      | error e => rw [hrest] at h; cases h
      | ok bs2 =>
        rw [hrest] at h
        cases h
        cases i with
        | zero => exact hfa
        | succ j => exact ih bs2 hrest j (Nat.lt_of_succ_lt_succ hx) (Nat.lt_of_succ_lt_succ hb)

/-- cube_meshs_from never raises the NotImplementedError reserved for
intermediate matrix storage. -/
theorem cube_meshs_from_ne_notImplemented (vals : List (String × TMValue R)) :
    cube_meshs_from vals ≠ .error .notImplementedIntermediate := by
  induction vals with
  | nil => intro h; cases h
  | cons p rest ih =>
    intro h
    unfold cube_meshs_from exceptMapList at h
    cases hp : transformCube p.2 with
    | error e =>
      rw [hp] at h
      cases p2 : p.2 with
      | single m => rw [p2] at hp; cases hp
      | chain es => rw [p2] at hp; cases hp; cases h
    | ok b =>
      rw [hp] at h
      cases hrest : exceptMapList (fun q => transformCube q.2) rest with
      | error e =>
        rw [hrest] at h
        cases h
        exact ih hrest
      | ok bs => rw [hrest] at h; cases h

/-- A successful chainFamilies is never the empty list of families. -/
theorem chainFamilies_ok_ne_nil (env : MathEnv R) (lh : Bool) (h5 : H5File R) :
    ∀ (fuel : ℕ) (entry : String) (fams : List (List (M4 R))),
      chainFamilies env lh h5 fuel entry = .ok fams → fams ≠ [] := by
  intro fuel entry fams h
  cases fuel with
  | zero => cases h
  | succ n =>
    unfold chainFamilies at h
    split at h
    · cases h
    · split at h
      · cases h
      · split at h
        · cases h; simp
        · split at h
          · cases h
          · cases h; simp

/-- Folding the singleton families of a nonempty matrix list composes the
matrices left to right. -/
theorem foldFams_singletons (m : M4 R) (ms : List (M4 R)) :
    foldFams ((m :: ms).map fun x => [x]) = [ms.foldl mmul m] := by
  suffices h : ∀ (ms : List (M4 R)) (a : M4 R),
      (ms.map fun x => [x]).foldl combineFams [a] = [ms.foldl mmul a] by
    simpa [foldFams] using h ms m
  intro ms
  induction ms with
  | nil => intro a; rfl
  | cons x xs ih => intro a; simpa [combineFams] using ih (mmul a x)

/-- A checkRequired failure is a localMatrices failure with the same
error. -/
theorem localMatrices_error_of_checkRequired (env : MathEnv R) (lh : Bool) (entry : String)
    (r : TransformRecord R) (e : RErr) (h : checkRequired r entry = .error e) :
    localMatrices env lh entry r = .error e := by
  unfold localMatrices
  rw [h]

/-- A localMatrices failure aborts the resolution of the record with the
same error. -/
theorem get_error_of_localMatrices (env : MathEnv R) (lh : Bool) (h5 : H5File R)
    (fuel : ℕ) (entry : String) (r : TransformRecord R) (e : RErr)
    (hr : lookupEntry h5 entry = .ok r) (hm : localMatrices env lh entry r = .error e) :
    getTransformationMatrix env lh h5 (fuel + 1) entry = .error e := by
  unfold getTransformationMatrix
  simp [hr, hm]

/-- The resolver computes exactly the left-to-right fold of the chain of
local families collected root first. -/
theorem get_eq_chainFamilies (env : MathEnv R) (lh : Bool) (h5 : H5File R) :
    ∀ (fuel : ℕ) (entry : String),
      getTransformationMatrix env lh h5 fuel entry =
        (chainFamilies env lh h5 fuel entry).map foldFams := by
  intro fuel
  induction fuel with
  | zero => intro entry; rfl
  | succ n ih =>
    intro entry
    unfold getTransformationMatrix chainFamilies
    cases hr : lookupEntry h5 entry with
    | error e => simp [hr, Except.map]
    | ok r =>
      simp only [hr]
      cases hm : localMatrices env lh entry r with
      | error e => simp [hm, Except.map]
      | ok ms =>
        simp only [hm]
        by_cases hd : r.depends_on.getD ("") = "."
        · simp [hd, Except.map, foldFams]
        · simp only [hd, if_false]
          rw [ih (dependsTarget entry (r.depends_on.getD ("")))]
          cases hp : chainFamilies env lh h5 n (dependsTarget entry (r.depends_on.getD (""))) with
          | error e => simp [hp, Except.map]
          | ok fams =>
            simp only [hp, Except.map]
            obtain ⟨f, fs, rfl⟩ :=
              List.exists_cons_of_ne_nil (chainFamilies_ok_ne_nil env lh h5 n _ fams hp)
            simp [foldFams, List.foldl_append]

/-
Claim theorems.
-/

/-- C1: a record whose depends_on is "." resolves to exactly its own local
matrix family (conjunct 1); a record with a non-root depends_on resolves to
the product parent-cumulative @ local with the parent on the left
(conjunct 2), applied per sample: with a single parent matrix the resolved
family is the parent matrix multiplied onto each local sample from the left
(conjunct 3); consequently the resolver computes the ordered left-to-right
fold of the local families from root to leaf (conjunct 4), which for
single-sample chains is the plain left-to-right matrix product of the local
matrices (conjunct 5). -/
theorem c1_chain_resolution (env : MathEnv R) (lh : Bool) (h5 : H5File R) :
    (∀ (fuel : ℕ) (entry : String) (r : TransformRecord R),
      lookupEntry h5 entry = .ok r → r.depends_on = some (".") →
      getTransformationMatrix env lh h5 (fuel + 1) entry = localMatrices env lh entry r) ∧
    (∀ (fuel : ℕ) (entry : String) (r : TransformRecord R) (d : String)
      (ms P : List (M4 R)),
      lookupEntry h5 entry = .ok r → r.depends_on = some d → d ≠ "." →
      localMatrices env lh entry r = .ok ms →
      getTransformationMatrix env lh h5 fuel (dependsTarget entry d) = .ok P →
      getTransformationMatrix env lh h5 (fuel + 1) entry = .ok (combineFams P ms)) ∧
    (∀ (p : M4 R) (ms : List (M4 R)), combineFams [p] ms = ms.map (mmul p)) ∧
    (∀ (fuel : ℕ) (entry : String),
      getTransformationMatrix env lh h5 fuel entry =
        (chainFamilies env lh h5 fuel entry).map foldFams) ∧
    (∀ (m : M4 R) (ms : List (M4 R)),
      foldFams ((m :: ms).map fun x => [x]) = [ms.foldl mmul m]) := by
  refine ⟨?_, ?_, ?_, ?_, ?_⟩
  · intro fuel entry r hr hd
    unfold getTransformationMatrix
    simp only [hr]
    cases hm : localMatrices env lh entry r with
    | error e => simp [hm]
    | ok ms => simp [hm, hd]
  · intro fuel entry r d ms P hr hd hne hm hp
    unfold getTransformationMatrix
    simp [hr, hm, hd, hne, hp]
  · intro p ms
    simp [combineFams]
  · exact get_eq_chainFamilies env lh h5
  · exact fun m ms => foldFams_singletons m ms

/-- C1 witness: the five conjuncts of the chain resolution theorem applied
to the concrete two-record chain t/a (translation 2 along x) <- t/b
(translation 3 along y, left-handed), with every hypothesis evaluated. -/
theorem c1_chain_resolution_witness :
    getTransformationMatrix env0 true h5c1 1 ("t/a") = localMatrices env0 true ("t/a") recRoot ∧
    getTransformationMatrix env0 true h5c1 2 ("t/b") = .ok (combineFams [rootM] [leafM]) ∧
    combineFams [rootM] [leafM] = [leafM].map (mmul rootM) ∧
    getTransformationMatrix env0 true h5c1 2 ("t/b") =
      (chainFamilies env0 true h5c1 2 ("t/b")).map foldFams ∧
    foldFams ([rootM, leafM].map fun x => [x]) = [[leafM].foldl mmul rootM] :=
  ⟨(c1_chain_resolution env0 true h5c1).1 0 ("t/a") recRoot (by decide) (by decide),
   (c1_chain_resolution env0 true h5c1).2.1 1 ("t/b") recLeaf ("a") [leafM] [rootM]
     (by decide) rfl (by decide) (by decide) (by decide),
   (c1_chain_resolution env0 true h5c1).2.2.1 rootM [leafM],
   (c1_chain_resolution env0 true h5c1).2.2.2.1 2 ("t/b"),
   (c1_chain_resolution env0 true h5c1).2.2.2.2 rootM [leafM]⟩

/-- C2: the claim states that every matrix produced by the Affine Builder,
in both conventions, is a well-formed numeric 4 by 4 matrix with last row
[0, 0, 0, 1].  The code violates this for translate in the default
right-handed convention: the tuple assignment on line 120 of matrix.py
stores trans[2] in the y slot and the whole trans array in the z slot, so
np.array receives inhomogeneous nested data and no numeric matrix is
produced (conjuncts 1 and 2, evaluated at the translation of the
repository's own test test_correct_chain_resolution_from_nexus up to
scale).  The same call with left_handed=True does produce a numeric affine
matrix (conjunct 3), and every rotate matrix has last row [0, 0, 0, 1] in
both conventions (conjunct 4), so the breakage is exactly the right-handed
translate branch. -/
theorem c2_right_handed_translate_not_affine :
    ((translateRun (![0, 0, 1] : V3 ℤ) none false).2 2 3 = Cell.arr ![0, 0, 1]) ∧
    (translate (![0, 0, 1] : V3 ℤ) none false = none) ∧
    (translate (![0, 0, 1] : V3 ℤ) none true =
      some ![![1,0,0,0], ![0,1,0,1], ![0,0,1,0], ![0,0,0,1]]) ∧
    (∀ (cosa sina vx vy vz : ℤ) (off : V3 ℤ) (lh : Bool),
      lastRowAffine (rotateRaw cosa sina vx vy vz off lh)) :=
  ⟨by decide, by decide, by decide,
    fun cosa sina vx vy vz off lh => rotateRaw_lastRow cosa sina vx vy vz off lh⟩

/-- C3: the claim states that a record carrying offset together with
offset_unit passes the offset-unit check, and that a record with offset but
without offset_unit fails it.  The code tests membership of the misspelled
attribute "offsets_units" (line 73 of nexus_transformations.py) while
reading "offset_unit" (line 78), so a record with the documented pair
offset + offset_unit is rejected (conjunct 1), while a record carrying
offset and only the misspelled "offsets_units" attribute passes the check
and silently defaults the offset unit to the empty string: the offset
vector reaches the matrix unconverted, as envDetect makes observable
(conjunct 2). -/
theorem c3_offset_unit_check_wrong_attribute :
    localMatrices envDetect false ("a/t1") rC3good = .error (.missingOffsetUnits ("a/t1")) ∧
    localMatrices envDetect false ("a/t2") rC3bad =
      .ok [![![1,0,0,1], ![0,1,0,2], ![0,0,1,3], ![0,0,0,1]]] :=
  ⟨by decide, by decide⟩

/-- localMatrices with both attribute checks passed reduces to the
per-sample matrix construction over the field samples. -/
theorem localMatrices_eq_of_checks (env : MathEnv R) (lh : Bool) (entry : String)
    (r : TransformRecord R) (hcr : checkRequired r entry = .ok ())
    (hg : (r.offset.isSome && !r.has_offsets_units) = false) :
    localMatrices env lh entry r =
      match fieldList r.field entry with
      | .error e => .error e
      | .ok xs =>
        exceptMapList
          (buildSample env lh (r.vector.getD ![0, 0, 0]) (r.transformation_type.getD (""))
            (r.units.getD (""))
            (env.uconvVec (r.offset.getD ![0, 0, 0]) (r.offset_unit.getD ("")))) xs := by
  unfold localMatrices
  rw [hcr]
  simp [hg]

/-- C7: a record lacking any of the four required attributes fails to
resolve with a ValueError naming the first missing attribute (in check
order) together with the record path; in particular a record missing only
units fails with the error naming units and the path, not a generic
error. -/
theorem c7_missing_required_attribute (env : MathEnv R) (lh : Bool) (h5 : H5File R)
    (fuel : ℕ) (entry : String) (r : TransformRecord R)
    (hr : lookupEntry h5 entry = .ok r) :
    (r.depends_on = none →
      getTransformationMatrix env lh h5 (fuel + 1) entry =
        .error (.missingAttr ("depends_on") entry)) ∧
    (r.depends_on ≠ none → r.vector = none →
      getTransformationMatrix env lh h5 (fuel + 1) entry =
        .error (.missingAttr ("vector") entry)) ∧
    (r.depends_on ≠ none → r.vector ≠ none → r.transformation_type = none →
      getTransformationMatrix env lh h5 (fuel + 1) entry =
        .error (.missingAttr ("transformation_type") entry)) ∧
    (r.depends_on ≠ none → r.vector ≠ none → r.transformation_type ≠ none → r.units = none →
      getTransformationMatrix env lh h5 (fuel + 1) entry =
        .error (.missingAttr ("units") entry)) := by
  refine ⟨?_, ?_, ?_, ?_⟩
  · intro h1
    refine get_error_of_localMatrices env lh h5 fuel entry r _ hr
      (localMatrices_error_of_checkRequired env lh entry r _ ?_)
    simp [checkRequired, h1]
  · intro h1 h2
    refine get_error_of_localMatrices env lh h5 fuel entry r _ hr
      (localMatrices_error_of_checkRequired env lh entry r _ ?_)
    simp [checkRequired, Option.isNone_iff_eq_none, h1, h2]
  · intro h1 h2 h3
    refine get_error_of_localMatrices env lh h5 fuel entry r _ hr
      (localMatrices_error_of_checkRequired env lh entry r _ ?_)
    simp [checkRequired, Option.isNone_iff_eq_none, h1, h2, h3]
  · intro h1 h2 h3 h4
    refine get_error_of_localMatrices env lh h5 fuel entry r _ hr
      (localMatrices_error_of_checkRequired env lh entry r _ ?_)
    simp [checkRequired, Option.isNone_iff_eq_none, h1, h2, h3, h4]

/-- C7 witness: resolving the concrete record rC7units, which misses only
its units attribute, fails with the ValueError naming units and the record
path m/u. -/
theorem c7_missing_required_attribute_witness :
    getTransformationMatrix env0 true h5c7 1 ("m/u") =
      .error (.missingAttr ("units") ("m/u")) :=
  (c7_missing_required_attribute env0 true h5c7 0 ("m/u") rC7units (by decide)).2.2.2
    (by decide) (by decide) (by decide) (by decide)

/-- C4 counterexample: the claim states that the N-matrix family is what
the public frame-to-matrix mapping (transformation_matrices_from) returns.
In fact the flattening value.values.flat[:16].reshape(4, 4) keeps only the
first matrix: the two-sample frame s/c resolves to the two distinct
matrices A1c4 and A2c4, yet its public flat value is identical to the one
of the single-sample frame s/d, namely just A1c4, so the mapping cannot be
returning the family. -/
theorem c4_flat_mapping_drops_family :
    getTransformationMatrix env0 true h5c4 1 ("s/c") = .ok [A1c4, A2c4] ∧
    A1c4 ≠ A2c4 ∧
    flatFrameMatrix env0 true h5c4 1 ("s/c") = .ok (some A1c4) ∧
    getTransformationMatrix env0 true h5c4 1 ("s/d") = .ok [A1c4] ∧
    flatFrameMatrix env0 true h5c4 1 ("s/d") = .ok (some A1c4) :=
  ⟨by decide, by decide, by decide, by decide, by decide⟩

/-- C4 amended: a 1-D field of length N yields exactly N local matrices,
the i-th equal to the single matrix obtained from the same record with the
i-th sample as a scalar field (conjunct 1); a field of dimensionality
greater than one is a hard NotImplementedError (conjunct 2); but the
public flat mapping keeps only the head of the resolved family, not the
whole family (conjunct 3). -/
theorem c4_samples_and_flattening (env : MathEnv R) (lh : Bool) (entry : String) :
    (∀ (r : TransformRecord R) (xs : List R) (ms : List (M4 R)),
      r.field = .array1d xs → localMatrices env lh entry r = .ok ms →
      ms.length = xs.length ∧
      ∀ (i : ℕ) (hx : i < xs.length) (hm : i < ms.length),
        localMatrices env lh entry { r with field := .scalar (xs.get ⟨i, hx⟩) } =
          .ok [ms.get ⟨i, hm⟩]) ∧
    (∀ (r : TransformRecord R) (n : ℕ),
      r.field = .higher n → checkRequired r entry = .ok () →
      (r.offset.isSome && !r.has_offsets_units) = false →
      localMatrices env lh entry r = .error (.unsupportedField entry)) ∧
    (∀ (h5 : H5File R) (fuel : ℕ) (e2 : String) (fam : List (M4 R)),
      getTransformationMatrix env lh h5 fuel e2 = .ok fam →
      flatFrameMatrix env lh h5 fuel e2 = .ok fam.head?) := by
  refine ⟨?_, ?_, ?_⟩
  · intro r xs ms hf hok
    unfold localMatrices at hok
    cases hcr : checkRequired r entry with
    | error e => rw [hcr] at hok; simp at hok
    | ok u =>
      cases u
      rw [hcr] at hok
      cases hg : (r.offset.isSome && !r.has_offsets_units) with
      | true => simp [hg] at hok
      | false =>
        simp only [hg, Bool.false_eq_true, if_false] at hok
        rw [hf] at hok
        simp only [fieldList] at hok
        refine ⟨exceptMapList_ok_length _ xs ms hok, ?_⟩
        intro i hx hm
        have hfa := exceptMapList_ok_get _ xs ms hok i hx hm
        rw [localMatrices_eq_of_checks env lh entry
          { r with field := FieldData.scalar (xs.get ⟨i, hx⟩) } hcr hg]
        show exceptMapList
          (buildSample env lh (r.vector.getD ![0, 0, 0]) (r.transformation_type.getD (""))
            (r.units.getD (""))
            (env.uconvVec (r.offset.getD ![0, 0, 0]) (r.offset_unit.getD (""))))
          [xs.get ⟨i, hx⟩] = .ok [ms.get ⟨i, hm⟩]
        unfold exceptMapList
        rw [hfa]
        rfl
  · intro r n hf hcr hg
    rw [localMatrices_eq_of_checks env lh entry r hcr hg, hf]
    simp [fieldList]
  · intro h5 fuel e2 fam h
    unfold flatFrameMatrix
    rw [h]

/-- C4 witness: the amended theorem applied to the concrete two-sample
record rC4 of frame s/c (its first sample resolved as a scalar record),
to the two-dimensional record rC4higher, and to the flat mapping of frame
s/c, with every hypothesis evaluated. -/
theorem c4_samples_and_flattening_witness :
    localMatrices env0 true ("s/c") { rC4 with field := FieldData.scalar 1 } = .ok [A1c4] ∧
    localMatrices env0 true ("s/x") rC4higher = .error (.unsupportedField ("s/x")) ∧
    flatFrameMatrix env0 true h5c4 1 ("s/c") = .ok ([A1c4, A2c4].head?) :=
  ⟨((c4_samples_and_flattening env0 true ("s/c")).1 rC4 [1, 2] [A1c4, A2c4] rfl (by decide)).2
      0 (by decide) (by decide),
   (c4_samples_and_flattening env0 true ("s/x")).2.1 rC4higher 2 rfl (by decide) (by decide),
   (c4_samples_and_flattening env0 true ("s/c")).2.2 h5c4 1 ("s/c") [A1c4, A2c4] (by decide)⟩

/-- C6 counterexample: the claim states that a maximum index of exactly 255
is stored as 8 bits, exactly 65535 as 16 bits, and that the oversized error
fires exactly when the maximum index does not fit in 32 bits.  The loop
compares with a strict less-than against np.iinfo(dtype).max, so 255 gets
16 bits, 65535 gets 32 bits, and the error already fires at 4294967295,
which does fit in 32 bits. -/
theorem c6_boundary_widths :
    chooseDtype 255 = some ("uint16") ∧
    chooseDtype 65535 = some ("uint32") ∧
    chooseDtype 4294967295 = none :=
  ⟨by decide, by decide, by decide⟩

/-- C6 amended: the packer chooses the narrowest width whose
np.iinfo(dtype).max strictly exceeds the maximum index (so the exact
boundary values 255, 65535 are widened one step), and the oversized error
fires exactly when the maximum index is at least 4294967295 = 2^32 - 1. -/
theorem c6_strict_width_selection :
    (∀ m : ℕ, m < 255 → chooseDtype m = some ("uint8")) ∧
    (∀ m : ℕ, 255 ≤ m → m < 65535 → chooseDtype m = some ("uint16")) ∧
    (∀ m : ℕ, 65535 ≤ m → m < 4294967295 → chooseDtype m = some ("uint32")) ∧
    (∀ m : ℕ, chooseDtype m = none ↔ 4294967295 ≤ m) := by
  refine ⟨?_, ?_, ?_, ?_⟩
  · intro m h
    simp [chooseDtype, h]
  · intro m h1 h2
    unfold chooseDtype
    rw [if_neg (by omega), if_pos h2]
  · intro m h1 h2
    unfold chooseDtype
    rw [if_neg (by omega), if_neg (by omega), if_pos h2]
  · intro m
    constructor
    · intro h
      unfold chooseDtype at h
      split_ifs at h with h1 h2 h3
      all_goals first
        | omega
        | exact absurd h (by simp)
    · intro h
      unfold chooseDtype
      rw [if_neg (by omega), if_neg (by omega), if_neg (by omega)]

/-- C6 witness: the amended width selection evaluated at the concrete
maximum indices 254 (8 bits) and 4294967295 (oversized). -/
theorem c6_strict_width_selection_witness :
    chooseDtype 254 = some ("uint8") ∧ chooseDtype 4294967295 = none :=
  ⟨c6_strict_width_selection.1 254 (by decide),
   (c6_strict_width_selection.2.2.2 4294967295).mpr (by decide)⟩

/-- C8 counterexample: the claim states that any mapping containing an
intermediate-chain value makes the flat writer fail with the named
feature-unsupported error, wherever the chain occurs.  The guard inspects
only the first value: for mixedVals, whose chain value comes second, the
writer passes the guard and instead fails later with the unrelated
TypeError of numpy-stl, not with the NotImplementedError. -/
theorem c8_chain_after_first_not_named_error :
    write_stl_file mixedVals = .error .typeError ∧
    write_stl_file mixedVals ≠ .error .notImplementedIntermediate :=
  ⟨by decide, by decide⟩

/-- C8 amended: the flat writer raises the named NotImplementedError
exactly when the first value of the (nonempty) mapping is an intermediate
chain; a chain occurring in any later position does not trigger the named
error (the run then fails downstream with an unrelated TypeError instead of
writing output). -/
theorem c8_first_value_guard (n : String) (v : TMValue R) (rest : List (String × TMValue R)) :
    write_stl_file ((n, v) :: rest) = .error .notImplementedIntermediate ↔
      ∃ es, v = TMValue.chain es := by
  cases v with
  | chain es => simp [write_stl_file]
  | single m =>
    simp only [write_stl_file, List.head?]
    constructor
    · intro h
      exact absurd h (cube_meshs_from_ne_notImplemented _)
    · rintro ⟨es, hes⟩
      cases hes

/-- C8 witness: a mapping whose first value is a chain does get the named
NotImplementedError. -/
theorem c8_first_value_guard_witness :
    write_stl_file [(("z"), TMValue.chain ([] : List (String × M4 ℤ)))] =
      .error .notImplementedIntermediate :=
  (c8_first_value_guard ("z") (TMValue.chain []) []).mpr ⟨[], rfl⟩

/-- C9: as stated, the claim (translate leaves its argument arrays
unchanged) is false: translate executes trans += offset, an in-place
addition into the translation argument.  Here, at the concrete input
translation = [1, 2, 3] and offset = [1, 1, 1], the translation array
after the call differs from the one passed in. -/
theorem c9_translate_mutates_argument :
    (translateRun (![1, 2, 3] : V3 ℤ) (some ![1, 1, 1]) false).1 ≠ ![1, 2, 3] := by
  decide

/-- C9 amended: rotate and translate are deterministic functions of their
arguments, and translate leaves the translation array unchanged when no
offset is passed; but when an offset is passed, translate adds it into the
translation argument in place, so after the call the array holds
translation + offset, and the returned matrix is the one for the combined
vector. -/
theorem c9_translate_mutation_characterized (t off : V3 R) (lh : Bool) :
    (translateRun t none lh).1 = t ∧
    (translateRun t (some off) lh).1 = (fun i => t i + off i) ∧
    (translateRun t (some off) lh).2 = (translateRun (fun i => t i + off i) none lh).2 :=
  ⟨rfl, rfl, rfl⟩

/-- The foldl of setDataStep from any state appends the explicit layout to
the state. -/
theorem setData_foldl (gs : List (List ℕ × List ℕ)) :
    ∀ st : SDState, gs.foldl setDataStep st =
      ⟨endOffset st.offset gs, st.binary ++ binFrom st.offset gs,
        st.views ++ viewsFrom st.offset gs⟩ := by
  induction gs with
  | nil =>
    intro st
    cases st
    simp [endOffset, binFrom, viewsFrom]
  | cons g rest ih =>
    intro st
    rw [List.foldl_cons, ih]
    cases st
    simp [setDataStep, endOffset, binFrom, viewsFrom, List.append_assoc]

/-- setData computes exactly the explicit layout started at offset 0. -/
theorem setData_eq (gs : List (List ℕ × List ℕ)) :
    setData gs = ⟨endOffset 0 gs, binFrom 0 gs, viewsFrom 0 gs⟩ := by
  rw [setData, setData_foldl]
  rfl

/-- The length of the explicit binary layout is the offset gain. -/
theorem binFrom_length (gs : List (List ℕ × List ℕ)) :
    ∀ off : ℕ, off + (binFrom off gs).length = endOffset off gs := by
  induction gs with
  | nil => intro off; simp [binFrom, endOffset]
  | cons g rest ih =>
    intro off
    have h := ih (off + g.1.length + g.2.length + (off + g.1.length % g.2.length))
    simp only [binFrom, endOffset, List.length_append, List.length_replicate]
    omega

/-- The explicit view layout holds two views per geometry. -/
theorem viewsFrom_length (gs : List (List ℕ × List ℕ)) :
    ∀ off : ℕ, (viewsFrom off gs).length = 2 * gs.length := by
  induction gs with
  | nil => intro off; simp [viewsFrom]
  | cons g rest ih =>
    intro off
    simp only [viewsFrom, List.length_cons, ih, List.length]
    omega

/-- Per geometry, the explicit view layout records the index view at the
running offset, the pad length equal to that offset plus the index length
modulo the vertex length, and the vertex view right after index blob plus
padding. -/
theorem viewsFrom_get (gs : List (List ℕ × List ℕ)) :
    ∀ (off i : ℕ) (g : List ℕ × List ℕ), gs.get? i = some g →
      ∃ io p, (viewsFrom off gs).get? (2 * i) = some (io, g.1.length) ∧
        (padLensAux off gs).get? i = some p ∧
        p = io + g.1.length % g.2.length ∧
        (viewsFrom off gs).get? (2 * i + 1) = some (io + g.1.length + p, g.2.length) ∧
        (i = 0 → io = off) := by
  induction gs with
  | nil => intro off i g h; simp [List.get?] at h
  | cons g0 rest ih =>
    intro off i g h
    cases i with
    | zero =>
      cases h
      exact ⟨off, off + g0.1.length % g0.2.length, rfl, rfl, rfl, rfl, fun _ => rfl⟩
    | succ j =>
      have h' : rest.get? j = some g := h
      obtain ⟨io, p, h1, h2, h3, h4, _⟩ :=
        ih (off + g0.1.length + g0.2.length + (off + g0.1.length % g0.2.length)) j g h'
      have e1 : 2 * (j + 1) = 2 * j + 1 + 1 := by ring
      have e2 : 2 * (j + 1) + 1 = (2 * j + 1) + 1 + 1 := by ring
      refine ⟨io, p, ?_, ?_, h3, ?_, by simp⟩
      · rw [e1]
        simpa [viewsFrom, List.get?_cons_succ] using h1
      · simpa [padLensAux, List.get?_cons_succ] using h2
      · rw [e2]
        simpa [viewsFrom, List.get?_cons_succ] using h4

/-- take of the length of a leading blob returns that blob. -/
theorem take_of_leading_blob {A : Type} (blob rest : List A) :
    ((blob ++ rest).take blob.length) = blob := by
  rw [List.take_append_eq_append_take]
  simp

/-- dropping past a leading block and taking inside the tail. -/
theorem drop_take_after {A : Type} (block tail : List A) (n k len : ℕ)
    (hn : n = block.length + k) :
    ((block ++ tail).drop n).take len = (tail.drop k).take len := by
  subst hn
  rw [List.drop_append_eq_append_drop]
  simp [List.drop_eq_nil_of_le, Nat.le_add_right]

/-- Per geometry, the views of the explicit layout locate the index blob
and the vertex blob inside the explicit binary layout. -/
theorem viewsFrom_extract (gs : List (List ℕ × List ℕ)) :
    ∀ (off i : ℕ) (g : List ℕ × List ℕ), gs.get? i = some g →
      ∃ io vo, (viewsFrom off gs).get? (2 * i) = some (io, g.1.length) ∧
        (viewsFrom off gs).get? (2 * i + 1) = some (vo, g.2.length) ∧
        off ≤ io ∧ off ≤ vo ∧
        ((binFrom off gs).drop (io - off)).take g.1.length = g.1 ∧
        ((binFrom off gs).drop (vo - off)).take g.2.length = g.2 := by
  induction gs with
  | nil => intro off i g h; simp [List.get?] at h
  | cons g0 rest ih =>
    intro off i g h
    cases i with
    | zero =>
      cases h
      refine ⟨off, off + g0.1.length + (off + g0.1.length % g0.2.length),
        rfl, rfl, Nat.le_refl off, by omega, ?_, ?_⟩
      · simp only [binFrom, Nat.sub_self, List.drop_zero, List.append_assoc]
        exact take_of_leading_blob g0.1 _
      · have hb : binFrom off (g0 :: rest) =
            (g0.1 ++ List.replicate (off + g0.1.length % g0.2.length) 0) ++
              (g0.2 ++ binFrom
                (off + g0.1.length + g0.2.length + (off + g0.1.length % g0.2.length)) rest) := by
          simp [binFrom, List.append_assoc]
        have hd := drop_take_after
          (g0.1 ++ List.replicate (off + g0.1.length % g0.2.length) 0)
          (g0.2 ++ binFrom
            (off + g0.1.length + g0.2.length + (off + g0.1.length % g0.2.length)) rest)
          (off + g0.1.length + (off + g0.1.length % g0.2.length) - off) 0 g0.2.length
          (by simp only [List.length_append, List.length_replicate]; omega)
        rw [hb, hd]
        simp only [List.drop_zero]
        exact take_of_leading_blob g0.2 _
    | succ j =>
      have h2 : rest.get? j = some g := h
      obtain ⟨io, vo, h1, hv1, hio, hvo, h5, h6⟩ :=
        ih (off + g0.1.length + g0.2.length + (off + g0.1.length % g0.2.length)) j g h2
      have e1 : 2 * (j + 1) = 2 * j + 1 + 1 := by ring
      have e2 : 2 * (j + 1) + 1 = (2 * j + 1) + 1 + 1 := by ring
      have hb : binFrom off (g0 :: rest) =
          ((g0.1 ++ List.replicate (off + g0.1.length % g0.2.length) 0) ++ g0.2) ++
            binFrom (off + g0.1.length + g0.2.length + (off + g0.1.length % g0.2.length)) rest := by
        simp [binFrom, List.append_assoc]
      refine ⟨io, vo, ?_, ?_, by omega, by omega, ?_, ?_⟩
      · rw [e1]
        simpa [viewsFrom, List.get?_cons_succ] using h1
      · rw [e2]
        simpa [viewsFrom, List.get?_cons_succ] using hv1
      · have hd := drop_take_after
          ((g0.1 ++ List.replicate (off + g0.1.length % g0.2.length) 0) ++ g0.2)
          (binFrom (off + g0.1.length + g0.2.length + (off + g0.1.length % g0.2.length)) rest)
          (io - off)
          (io - (off + g0.1.length + g0.2.length + (off + g0.1.length % g0.2.length)))
          g.1.length
          (by simp only [List.length_append, List.length_replicate]; omega)
        rw [hb, hd]
        exact h5
      · have hd := drop_take_after
          ((g0.1 ++ List.replicate (off + g0.1.length % g0.2.length) 0) ++ g0.2)
          (binFrom (off + g0.1.length + g0.2.length + (off + g0.1.length % g0.2.length)) rest)
          (vo - off)
          (vo - (off + g0.1.length + g0.2.length + (off + g0.1.length % g0.2.length)))
          g.2.length
          (by simp only [List.length_append, List.length_replicate]; omega)
        rw [hb, hd]
        exact h6

/-- C5 counterexample: the claim states the padding between every index
blob and its vertex blob is (index length) mod (vertex length).  The code
computes fill_offset = offset + len(indices_bin) % len(vertices_bin), which
adds the running buffer offset: already for the second of two identical
geometries (3-byte indices, 4-byte vertices) the padding is 13, not
3 mod 4 = 3, and the vertex view starts at 26, not at 10 + 3 + 3 mod 4. -/
theorem c5_padding_uses_running_offset :
    padLensAux 0 gsC5 = [3, 13] ∧
    (13 : ℕ) ≠ 3 % 4 ∧
    (setData gsC5).views = [(0, 3), (6, 4), (10, 3), (26, 4)] ∧
    (26 : ℕ) ≠ 10 + 3 + 3 % 4 :=
  ⟨by decide, by decide, by decide, by decide⟩

/-- C5 amended: for every geometry, the inserted padding equals the running
buffer offset at that geometry (which is the byte offset of its index view)
plus the index blob length modulo the vertex blob length, and the vertex
view starts at index view offset + index length + that padding; only for
the first geometry, whose running offset is zero, does the padding reduce
to the plain modulo of the claim. -/
theorem c5_padding_characterized (gs : List (List ℕ × List ℕ)) (i : ℕ)
    (g : List ℕ × List ℕ) (h : gs.get? i = some g) :
    ∃ io p, (setData gs).views.get? (2 * i) = some (io, g.1.length) ∧
      (padLensAux 0 gs).get? i = some p ∧
      p = io + g.1.length % g.2.length ∧
      (setData gs).views.get? (2 * i + 1) = some (io + g.1.length + p, g.2.length) ∧
      (i = 0 → io = 0 ∧ p = g.1.length % g.2.length) := by
  have hsd : (setData gs).views = viewsFrom 0 gs := by rw [setData_eq]
  rw [hsd]
  obtain ⟨io, p, h1, h2, h3, h4, h5⟩ := viewsFrom_get gs 0 i g h
  refine ⟨io, p, h1, h2, h3, h4, fun hi => ⟨h5 hi, ?_⟩⟩
  rw [h3, h5 hi, Nat.zero_add]

/-- C5 witness: the amended padding characterization evaluated at the
second geometry of the concrete two-geometry list gsC5. -/
theorem c5_padding_characterized_witness :
    ∃ io p, (setData gsC5).views.get? 2 = some (io, 3) ∧
      (padLensAux 0 gsC5).get? 1 = some p ∧
      p = io + 3 % 4 ∧
      (setData gsC5).views.get? 3 = some (io + 3 + p, 4) ∧
      (1 = 0 → io = 0 ∧ p = 3 % 4) :=
  c5_padding_characterized gsC5 1 ([0, 0, 0], [0, 0, 0, 0]) (by decide)

/-- C10: the emitted metadata tiles the emitted binary buffer exactly: the
declared buffer byteLength equals the length of the binary data, there are
two buffer views per geometry, and for every geometry the index view
(byteOffset, byteLength) locates exactly its index blob in the buffer and
the vertex view locates exactly its vertex blob after the inserted
padding. -/
theorem c10_views_tile_buffer (gs : List (List ℕ × List ℕ))
    (hvb : ∀ g ∈ gs, g.2 ≠ []) :
    (setData gs).binary.length = (setData gs).offset ∧
    (setData gs).views.length = 2 * gs.length ∧
    ∀ i g, gs.get? i = some g →
      ∃ io vo, (setData gs).views.get? (2 * i) = some (io, g.1.length) ∧
        ((setData gs).binary.drop io).take g.1.length = g.1 ∧
        (setData gs).views.get? (2 * i + 1) = some (vo, g.2.length) ∧
        ((setData gs).binary.drop vo).take g.2.length = g.2 := by
  rw [setData_eq]
  refine ⟨?_, viewsFrom_length gs 0, ?_⟩
  · have h := binFrom_length gs 0
    simpa using h
  · intro i g h
    obtain ⟨io, vo, h1, h2, _, _, h5, h6⟩ := viewsFrom_extract gs 0 i g h
    exact ⟨io, vo, h1, by simpa using h5, h2, by simpa using h6⟩

/-- C10 witness: the tiling applied to the concrete two-geometry list
gsC10, including the exact extraction of the second geometry's index blob
[8] and vertex blob [9, 10] from the packed buffer. -/
theorem c10_views_tile_buffer_witness :
    (setData gsC10).binary.length = (setData gsC10).offset ∧
    (setData gsC10).views.length = 2 * gsC10.length ∧
    (∃ io vo, (setData gsC10).views.get? 2 = some (io, 1) ∧
      ((setData gsC10).binary.drop io).take 1 = [8] ∧
      (setData gsC10).views.get? 3 = some (vo, 2) ∧
      ((setData gsC10).binary.drop vo).take 2 = [9, 10]) :=
  ⟨(c10_views_tile_buffer gsC10 (by decide)).1,
   (c10_views_tile_buffer gsC10 (by decide)).2.1,
   (c10_views_tile_buffer gsC10 (by decide)).2.2 1 ([8], [9, 10]) (by decide)⟩

end Nexus3d
